import Mathlib

/-!
Verification of the Dioptra v1 REST service against its specification.

This file gives a shallow embedding of the parts of the repository that the
claims refer to:

* the response and paging builders of `src/dioptra/restapi/v1/utils.py`
  (`build_url`, `build_paging_url`, `build_paging_envelope`, `build_group`),
* the plugin parameter type services of
  `src/dioptra/restapi/v1/plugin_parameter_types/service.py`
  (`create`, list `get`, by-id `get`, `modify`, `delete` and the name
  service `get`),
* the user password services of `src/dioptra/restapi/v1/users/service.py`
  (`UserPasswordService.authenticate` and `UserPasswordService.change`),
* the call shape of `QueueEndpoint.get` in
  `src/dioptra/restapi/v1/queues/controller.py`.

The relational store (tables of resources, snapshots and locks, as described
in section 3 of the spec) is modelled as explicit lists; SQL `SELECT ... WHERE`
with `first()` becomes `List.find?`, `offset`/`limit` become `List.drop` and
`List.take`, and raising becomes an `Except` result.  Services that mutate the
session return the new store together with the outcome; on the error paths the
store is returned unchanged because the Python methods raise before any
`db.session.add`.  Timestamps are integers measured in days, so Python
`timedelta(days=n)` becomes `+ n`.
-/

namespace Dioptra

/-- Decidable equality for `Except` results, so that witnesses can evaluate
service outcomes on concrete inputs. -/
instance {ε α : Type} [DecidableEq ε] [DecidableEq α] :
    DecidableEq (Except ε α) := fun x y =>
  match x, y with
  | .error e, .error f =>
      if h : e = f then .isTrue (congrArg Except.error h)
      else .isFalse (fun hc => h (Except.error.inj hc))
  | .ok a, .ok b =>
      if h : a = b then .isTrue (congrArg Except.ok h)
      else .isFalse (fun hc => h (Except.ok.inj hc))
  | .error _, .ok _ => .isFalse (fun hc => Except.noConfusion hc)
  | .ok _, .error _ => .isFalse (fun hc => Except.noConfusion hc)

/-- A URL as produced by `build_url`: the path together with the ordered
query parameters that `urlencode` serializes into the query string. -/
structure Url where
  path : String
  query_params : List (String × String)
deriving Repr, DecidableEq

/-- Embedding of `build_url` (v1/utils.py): prepends the v1 root to the route
and attaches the query parameters. -/
def build_url (route : String) (query_params : List (String × String)) : Url :=
  { path := "/v1/" ++ route, query_params := query_params }

/-- Embedding of `build_paging_url` (v1/utils.py): `index` and `pageLength`
are always present; `groupId`, `search` and `draft_type` are added only when
the corresponding Python value is truthy (`if group_id:` etc.), that is, not
`None`, not `0`, and not the empty string. -/
def build_paging_url (route : String) (group_id : Option Nat)
    (search : Option String) (draft_type : Option String)
    (index length : Nat) : Url :=
  build_url route
    ([("index", toString index), ("pageLength", toString length)]
      ++ (match group_id with
          | some g => if g ≠ 0 then [("groupId", toString g)] else []
          | none => [])
      ++ (match search with
          | some s => if s ≠ "" then [("search", s)] else []
          | none => [])
      ++ (match draft_type with
          | some d => if d ≠ "" then [("draft_type", d)] else []
          | none => []))

/-- The paging envelope returned by `build_paging_envelope`; the optional
`prev` and `next` fields model the conditionally-added dictionary keys. -/
structure PagingEnvelope (β : Type) where
  index : Nat
  is_complete : Bool
  total_num_results : Nat
  first : Url
  prev : Option Url
  next : Option Url
  data : List β
deriving Repr, DecidableEq

/-- Embedding of `build_paging_envelope` (v1/utils.py): `has_prev = index > 0`,
`has_next = total_num_elements > index + length`, `is_complete = not has_next`;
the `prev` link uses index `max (index - length) 0` and the `next` link uses
index `index + length`; all three URLs carry the same filter arguments. -/
def build_paging_envelope {α β : Type} (route : String) (build_fn : α → β)
    (data : List α) (group_id : Option Nat) (query : Option String)
    (draft_type : Option String) (index length total_num_elements : Nat) :
    PagingEnvelope β :=
  let has_prev : Bool := decide (index > 0)
  let has_next : Bool := decide (total_num_elements > index + length)
  { index := index
    is_complete := !has_next
    total_num_results := total_num_elements
    first := build_paging_url route group_id query draft_type 0 length
    prev :=
      if has_prev then
        some (build_paging_url route group_id query draft_type
          (max (index - length) 0) length)
      else none
    next :=
      if has_next then
        some (build_paging_url route group_id query draft_type
          (index + length) length)
      else none
    data := data.map build_fn }

/-- A Python function parameter: its name and whether it has a default
value. -/
structure PyParam where
  name : String
  has_default : Bool
deriving Repr, DecidableEq

/-- Python positional call binding: a call with `nargs` positional arguments
and no keyword arguments binds successfully exactly when `nargs` is at least
the number of parameters without defaults and at most the total number of
parameters; otherwise the call raises `TypeError`. -/
def binds_positional (params : List PyParam) (nargs : Nat) : Bool :=
  decide ((params.filter (fun p => !p.has_default)).length ≤ nargs
    ∧ nargs ≤ params.length)

/-- The positional parameters of `build_paging_envelope` (v1/utils.py), in
source order; none of them has a default value. -/
def build_paging_envelope_params : List PyParam :=
  [⟨"route", false⟩, ⟨"build_fn", false⟩, ⟨"data", false⟩,
   ⟨"group_id", false⟩, ⟨"query", false⟩, ⟨"draft_type", false⟩,
   ⟨"index", false⟩, ⟨"length", false⟩, ⟨"total_num_elements", false⟩]

/-- The positional arguments that `QueueEndpoint.get`
(v1/queues/controller.py, lines 82 to 90) supplies to
`utils.build_paging_envelope`, in source order, described by the source
expressions. -/
def queue_endpoint_get_call_args : List String :=
  ["\x22queues\x22", "utils.build_queue", "queues", "search_string",
   "page_index", "page_length", "total_num_queues"]

/-- Modelled from the spec: `PasswordService.hash` of the v0 shared password
service, which is not under src (only its callers are).  Section 4.3 of the
spec only requires that `authenticate` verifies a hash match, so hashing is
modelled as an injective encoding of the password. -/
def password_service_hash (password : String) : String :=
  "pbkdf2-sha256$" ++ password

/-- Modelled from the spec: `PasswordService.verify` of the v0 shared
password service, which is not under src; it checks the submitted password
against the stored hash. -/
def password_service_verify (password hashed_password : String) : Bool :=
  password_service_hash password == hashed_password

/-- The error taxonomy of the user service (v1/users/errors.py). -/
inductive UserServiceError where
  | userPasswordVerificationError
  | userPasswordExpiredError
  | userPasswordChangeError
  | userPasswordChangeSamePasswordError
deriving Repr, DecidableEq

/-- The password validity window, in days (v1/users/service.py line 60). -/
def DAYS_TO_EXPIRE_PASSWORD_DEFAULT : Int := 365

/-- The fields of a user row that the password services read or write.
`alternative_id` models the rotated UUID as a number. -/
structure User where
  user_id : Nat
  username : String
  password : String
  alternative_id : Nat
  last_modified_on : Int
  password_expire_on : Int
deriving Repr, DecidableEq

/-- Embedding of `UserPasswordService.authenticate` (v1/users/service.py,
lines 467 to 506).  `now` stands for `datetime.datetime.now()`, passed
explicitly.  The verification failure is checked first, then expiry. -/
def authenticate (password user_password : String) (expiration_date : Int)
    (error_if_failed : Bool) (now : Int) : Except UserServiceError Bool :=
  let authenticated := password_service_verify password user_password
  if !authenticated && error_if_failed then
    .error .userPasswordVerificationError
  else if expiration_date < now then
    .error .userPasswordExpiredError
  else
    .ok authenticated

/-- Embedding of `UserPasswordService.change` (v1/users/service.py, lines 508
to 562).  The user is returned together with the outcome; on the error paths
the user is unchanged because the Python method raises before mutating.
`fresh_uuid` stands for `uuid.uuid4()` and `now` for
`datetime.datetime.now()`.  On success the method returns the status
dictionary, modelled here by the username it carries. -/
def change (user : User)
    (current_password new_password confirm_new_password : String)
    (fresh_uuid : Nat) (now : Int) : User × Except UserServiceError String :=
  if !(password_service_verify current_password user.password) then
    (user, .error .userPasswordChangeError)
  else if new_password ≠ confirm_new_password then
    (user, .error .userPasswordChangeError)
  else if password_service_verify new_password user.password then
    (user, .error .userPasswordChangeSamePasswordError)
  else
    ({ user with
        password := password_service_hash new_password
        alternative_id := fresh_uuid
        last_modified_on := now
        password_expire_on := now + DAYS_TO_EXPIRE_PASSWORD_DEFAULT },
     .ok user.username)

/-- The resource type discriminator of the plugin parameter type services
(v1/plugin_parameter_types/service.py line 39). -/
def RESOURCE_TYPE : String := "plugin_task_parameter_type"

/-- The mutable fields of a plugin parameter type snapshot: the three columns
that `create` and `modify` write.  `structure_` stands for the `structure`
column (a keyword in Lean); its JSON value is modelled as a string. -/
structure PPTFields where
  name : String
  structure_ : String
  description : String
deriving Repr, DecidableEq

/-- Modelled from the spec (section 3, the ORM models module is not under
src): a `PluginTaskParameterType` snapshot row, an immutable version of the
mutable fields of a resource, with its own `resource_snapshot_id` and a back
reference to the owning resource. -/
structure SnapshotRow where
  resource_snapshot_id : Nat
  resource_id : Nat
  fields : PPTFields
deriving Repr, DecidableEq

/-- Modelled from the spec (section 3): a `Resource` row with its stable id,
type discriminator, owning group and the pointer to the latest snapshot. -/
structure ResourceRow where
  resource_id : Nat
  resource_type : String
  group_id : Nat
  latest_snapshot_id : Nat
deriving Repr, DecidableEq

/-- Modelled from the spec (section 3): a `ResourceLock` row recording a lock
event (such as "delete") on a resource. -/
structure LockRow where
  resource_lock_type : String
  resource_id : Nat
deriving Repr, DecidableEq

/-- The relational store the services query: the group, resource, snapshot
and lock tables, together with the id sequences that the database assigns to
new rows.  Groups are represented by their ids, which is all the plugin
parameter type services read of them. -/
structure Store where
  groups : List Nat
  resources : List ResourceRow
  snapshots : List SnapshotRow
  locks : List LockRow
  next_resource_id : Nat
  next_snapshot_id : Nat
deriving Repr, DecidableEq

/-- The error taxonomy raised by the plugin parameter type services
(v1/plugin_parameter_types/errors.py and dioptra/restapi/errors.py);
`doesNotExist` also stands for the group service `DoesNotExist` error. -/
inductive ServiceError where
  | alreadyExists
  | doesNotExist
  | searchNotImplemented
  | backendDatabaseError
deriving Repr, DecidableEq

/-- The SQL join from a snapshot row to its `Resource` row: the first
resource row carrying the given resource id. -/
def resourceOf (store : Store) (rid : Nat) : Option ResourceRow :=
  store.resources.find? (fun r => r.resource_id == rid)

/-- Modelled from the spec (section 3): `Resource.is_deleted` is equivalent
to the presence of a "delete" `ResourceLock` for the resource. -/
def is_deleted (store : Store) (rid : Nat) : Bool :=
  store.locks.any (fun l =>
    l.resource_id == rid && l.resource_lock_type == "delete")

/-- Embedding of `PluginParameterTypeNameService.get`
(v1/plugin_parameter_types/service.py, lines 393 to 442): the first snapshot
row whose name matches, joined to a resource of the given group that is not
deleted and whose `latest_snapshot_id` points back at the row. -/
def plugin_parameter_type_name_get (store : Store) (name : String)
    (group_id : Nat) : Option SnapshotRow :=
  store.snapshots.find? (fun s =>
    s.fields.name == name &&
      (match resourceOf store s.resource_id with
       | some r =>
           r.group_id == group_id && !(is_deleted store r.resource_id) &&
             r.latest_snapshot_id == s.resource_snapshot_id
       | none => false))

/-- Embedding of `PluginParameterTypeIdService.get`
(v1/plugin_parameter_types/service.py, lines 224 to 273): the snapshot row of
the given resource id that the non-deleted resource `latest_snapshot_id`
points at; the returned ORM object carries its `resource` relationship, so
the result is paired with the resource row. -/
def plugin_parameter_type_id_get (store : Store) (rid : Nat) :
    Option (SnapshotRow × ResourceRow) :=
  match store.snapshots.find? (fun s =>
      s.resource_id == rid &&
        (match resourceOf store s.resource_id with
         | some r =>
             r.latest_snapshot_id == s.resource_snapshot_id &&
               !(is_deleted store r.resource_id)
         | none => false)) with
  | none => none
  | some s => (resourceOf store s.resource_id).map (fun r => (s, r))

/-- `PluginParameterTypeIdService.get` with `error_if_not_found=True`, as the
controller calls it: a missing or deleted resource raises `DoesNotExist`. -/
def plugin_parameter_type_id_get_err (store : Store) (rid : Nat) :
    Except ServiceError (SnapshotRow × ResourceRow) :=
  match plugin_parameter_type_id_get store rid with
  | none => .error .doesNotExist
  | some pr => .ok pr

/-- Embedding of `PluginParameterTypeService.create`
(v1/plugin_parameter_types/service.py, lines 63 to 125): raises
`AlreadyExists` when the name service finds a non-deleted resource of the
same name in the group, raises through the group service when the group does
not exist, and otherwise adds a new `Resource` together with its first
snapshot, the database assigning fresh ids.  Errors are raised before
anything is added, so the store is returned unchanged on the error paths. -/
def plugin_parameter_type_create (store : Store)
    (name structure_ description : String) (group_id : Nat) :
    Store × Except ServiceError SnapshotRow :=
  if (plugin_parameter_type_name_get store name group_id).isSome then
    (store, .error .alreadyExists)
  else if !(store.groups.contains group_id) then
    (store, .error .doesNotExist)
  else
    let rid := store.next_resource_id
    let sid := store.next_snapshot_id
    let res : ResourceRow := ⟨rid, RESOURCE_TYPE, group_id, sid⟩
    let snap : SnapshotRow := ⟨sid, rid, ⟨name, structure_, description⟩⟩
    ({ store with
        resources := store.resources ++ [res]
        snapshots := store.snapshots ++ [snap]
        next_resource_id := rid + 1
        next_snapshot_id := sid + 1 },
     .ok snap)

/-- Embedding of `PluginParameterTypeIdService.modify`
(v1/plugin_parameter_types/service.py, lines 275 to 350): fetches the current
snapshot through the by-id `get`; returns `none` (or raises `DoesNotExist`
when `error_if_not_found` is set) when the resource is missing or deleted;
raises `AlreadyExists` when the new name differs from the current one and
collides with another resource in the group; otherwise inserts a new snapshot
row for the same resource with the updated fields and a fresh (bumped)
`resource_snapshot_id`, and repoints the resource `latest_snapshot_id` at it
(modelled from the spec, section 4.1: the repointing is done by the ORM
layer, which is not under src). -/
def plugin_parameter_type_modify (store : Store) (rid : Nat)
    (name structure_ description : String) (error_if_not_found : Bool) :
    Store × Except ServiceError (Option SnapshotRow) :=
  match plugin_parameter_type_id_get store rid with
  | none =>
      if error_if_not_found then (store, .error .doesNotExist)
      else (store, .ok none)
  | some (cur, res) =>
      if name ≠ cur.fields.name &&
          (plugin_parameter_type_name_get store name res.group_id).isSome then
        (store, .error .alreadyExists)
      else
        let sid := store.next_snapshot_id
        let snap : SnapshotRow := ⟨sid, rid, ⟨name, structure_, description⟩⟩
        ({ store with
            snapshots := store.snapshots ++ [snap]
            resources := store.resources.map (fun r =>
              if r.resource_id == rid then
                { r with latest_snapshot_id := sid }
              else r)
            next_snapshot_id := sid + 1 },
         .ok (some snap))

/-- Embedding of `PluginParameterTypeIdService.delete`
(v1/plugin_parameter_types/service.py, lines 352 to 387): looks up a
non-deleted resource row of the plugin parameter type resource type by id,
raises `DoesNotExist` when there is none, and otherwise records a
`ResourceLock` of kind "delete"; on success the returned status dictionary
carries the resource id. -/
def plugin_parameter_type_delete (store : Store) (rid : Nat) :
    Store × Except ServiceError Nat :=
  match store.resources.find? (fun r =>
      r.resource_id == rid && r.resource_type == RESOURCE_TYPE &&
        !(is_deleted store r.resource_id)) with
  | none => (store, .error .doesNotExist)
  | some _ =>
      ({ store with locks := store.locks ++ [⟨"delete", rid⟩] }, .ok rid)

/-- The rows matched by both queries of the list `get` of
`PluginParameterTypeService` (v1/plugin_parameter_types/service.py, lines 157
to 201): latest snapshots of non-deleted resources, filtered by group when a
group id is given. -/
def matching_snapshots (store : Store) (group_id : Option Nat) :
    List SnapshotRow :=
  store.snapshots.filter (fun s =>
    match resourceOf store s.resource_id with
    | some r =>
        (match group_id with
         | some g => r.group_id == g
         | none => true) &&
          !(is_deleted store r.resource_id) &&
          r.latest_snapshot_id == s.resource_snapshot_id
    | none => false)

/-- Embedding of the list `get` of `PluginParameterTypeService`
(v1/plugin_parameter_types/service.py, lines 127 to 203): raises
`SearchNotImplemented` on a non-empty search string; otherwise counts the
matching rows, short-circuits on zero, and returns the page obtained by
applying `page_index` as the row offset and `page_length` as the limit,
together with the total count. -/
def plugin_parameter_type_list (store : Store) (group_id : Option Nat)
    (search_string : String) (page_index page_length : Nat) :
    Except ServiceError (List SnapshotRow × Nat) :=
  if search_string ≠ "" then .error .searchNotImplemented
  else
    let total := (matching_snapshots store group_id).length
    if total = 0 then .ok ([], total)
    else
      .ok (((matching_snapshots store group_id).drop page_index).take
        page_length, total)

/-- Modelled from the spec (section 4.1, the shared snapshot service is not
under src): `get_snapshot(resource_id, snapshot_id)` returns the specific
historical snapshot row regardless of the deletion state of later
versions. -/
def resource_snapshot_get (store : Store) (rid sid : Nat) :
    Option SnapshotRow :=
  store.snapshots.find? (fun s =>
    s.resource_id == rid && s.resource_snapshot_id == sid)

/-- The page traversal of the spec (section 8): request the page at `index`
through the service, then follow the `next` link of the envelope, whose index
is `index + length`, until `is_complete`; the page data lists are
concatenated.  Termination: each step advances the offset by the positive
page length. -/
def follow_pages (store : Store) (group_id : Option Nat) (length : Nat)
    (hL : 0 < length) (index : Nat) : List SnapshotRow :=
  ((matching_snapshots store group_id).drop index).take length ++
    (if _h : (matching_snapshots store group_id).length > index + length then
      follow_pages store group_id length hL (index + length)
    else [])
termination_by (matching_snapshots store group_id).length - index
decreasing_by
  omega

/-- The page start indices visited by the traversal of `follow_pages`: from
`index`, follow the `next` links, each of which advances by the page
length. -/
def page_starts (total length : Nat) (hL : 0 < length) (index : Nat) :
    List Nat :=
  index ::
    (if _h : total > index + length then
      page_starts total length hL (index + length)
    else [])
termination_by total - index
decreasing_by
  omega

/-- Well-formedness of the store, maintained by the database: resource ids
and snapshot ids are primary keys, and the id sequences dominate every id in
use. -/
structure StoreWF (store : Store) : Prop where
  res_nodup : (store.resources.map (fun r => r.resource_id)).Nodup
  snap_nodup : (store.snapshots.map (fun s => s.resource_snapshot_id)).Nodup
  snap_lt : ∀ s ∈ store.snapshots,
    s.resource_snapshot_id < store.next_snapshot_id
  res_lt : ∀ r ∈ store.resources, r.resource_id < store.next_resource_id

/-- A group membership row (spec section 3): per-user permission bits. -/
structure GroupMemberRow where
  user_id : Nat
  read : Bool
  write : Bool
  share_read : Bool
  share_write : Bool
deriving Repr, DecidableEq

/-- A group manager row (spec section 3): owner and admin flags on the
separate manager relation. -/
structure GroupManagerRow where
  user_id : Nat
  owner : Bool
  admin : Bool
deriving Repr, DecidableEq

/-- The parts of a `Group` ORM row that `build_group` reads. -/
structure GroupRow where
  group_id : Nat
  name : String
  creator_id : Nat
  members : List GroupMemberRow
  managers : List GroupManagerRow
deriving Repr, DecidableEq

/-- The permissions dictionary of one entry of the `members` list built by
`build_group`. -/
structure MemberPermissions where
  read : Bool
  write : Bool
  share_read : Bool
  share_write : Bool
  owner : Bool
  admin : Bool
deriving Repr, DecidableEq

/-- The group response dictionary built by `build_group`; `members` keeps the
dictionary keyed by user id, in insertion order, whose values the Python code
returns; the user and group reference sub-dictionaries and the timestamps are
straightforward projections and are omitted. -/
structure GroupResponse where
  id : Nat
  name : String
  creator_id : Nat
  members : List (Nat × MemberPermissions)
deriving Repr, DecidableEq

/-- Insertion into a Python dictionary modelled as an association list: an
existing key is overwritten in place, a new key is appended. -/
def dict_insert {α : Type} (k : Nat) (v : α) :
    List (Nat × α) → List (Nat × α)
  | [] => [(k, v)]
  | (k', v') :: rest =>
      if k' == k then (k, v) :: rest else (k', v') :: dict_insert k v rest

/-- Mutation of the value at a key of a Python dictionary modelled as an
association list: `none` models the `KeyError` raised when the key is
absent. -/
def dict_update {α : Type} (k : Nat) (f : α → α) :
    List (Nat × α) → Option (List (Nat × α))
  | [] => none
  | (k', v') :: rest =>
      if k' == k then some ((k', f v') :: rest)
      else (dict_update k f rest).map (fun d => (k', v') :: d)

/-- The permissions entry the member loop of `build_group` writes for a
member: the four bits from the membership row, owner and admin false. -/
def member_permissions (m : GroupMemberRow) : MemberPermissions :=
  ⟨m.read, m.write, m.share_read, m.share_write, false, false⟩

/-- The first loop of `build_group` (v1/utils.py, lines 301 to 313): the
members dictionary keyed by user id. -/
def members_dict (g : GroupRow) : List (Nat × MemberPermissions) :=
  g.members.foldl
    (fun d m => dict_insert m.user_id (member_permissions m) d) []

/-- One step of the manager loop of `build_group` (v1/utils.py, lines 315 to
317): overwrite the owner and admin flags of the entry at the manager user
id; `none` models the `KeyError` raised when the manager is not a member. -/
def apply_manager (d : List (Nat × MemberPermissions))
    (mgr : GroupManagerRow) : Option (List (Nat × MemberPermissions)) :=
  dict_update mgr.user_id
    (fun p => { p with owner := mgr.owner, admin := mgr.admin }) d

/-- Embedding of `build_group` (v1/utils.py, lines 290 to 326): builds the
members dictionary from the members relation, then overwrites owner and
admin flags from the managers relation; a manager who is not a member makes
the whole call fail with `KeyError`, modelled by `none`. -/
def build_group (g : GroupRow) : Option GroupResponse :=
  (g.managers.foldlM apply_manager (members_dict g)).map
    (fun d => ⟨g.group_id, g.name, g.creator_id, d⟩)

/-! ## Theorems -/

/-- The query parameters of a paging URL, with the index entry removed: the
filter parameters that the claim about link consistency compares. -/
theorem build_paging_url_filter_index (route : String) (group_id : Option Nat)
    (search draft_type : Option String) (i j length : Nat) :
    (build_paging_url route group_id search draft_type i length).query_params.filter
        (fun p => p.1 != "index") =
      (build_paging_url route group_id search draft_type j length).query_params.filter
        (fun p => p.1 != "index") := by
  simp [build_paging_url, build_url, List.filter_append]

/-- C5.  `build_paging_envelope` returns an envelope whose index and
total_num_results equal its inputs, whose is_complete is the negation of
`total > index + length`, whose prev key is present exactly when `index > 0`
and carries index `max (index - length) 0`, whose next key is present exactly
when `total > index + length` and carries index `index + length`, and whose
first, prev and next URLs carry the same groupId, search and draft_type
filter parameters with only the index adjusted. -/
theorem c5_build_paging_envelope_shape {α β : Type} (route : String)
    (build_fn : α → β) (data : List α) (group_id : Option Nat)
    (query : Option String) (draft_type : Option String)
    (index length total : Nat) :
    (build_paging_envelope route build_fn data group_id query draft_type
        index length total).index = index ∧
    (build_paging_envelope route build_fn data group_id query draft_type
        index length total).total_num_results = total ∧
    ((build_paging_envelope route build_fn data group_id query draft_type
        index length total).is_complete = true ↔ ¬ total > index + length) ∧
    ((build_paging_envelope route build_fn data group_id query draft_type
        index length total).prev.isSome = true ↔ index > 0) ∧
    (index > 0 →
      (build_paging_envelope route build_fn data group_id query draft_type
          index length total).prev =
        some (build_paging_url route group_id query draft_type
          (max (index - length) 0) length)) ∧
    ((build_paging_envelope route build_fn data group_id query draft_type
        index length total).next.isSome = true ↔ total > index + length) ∧
    (total > index + length →
      (build_paging_envelope route build_fn data group_id query draft_type
          index length total).next =
        some (build_paging_url route group_id query draft_type
          (index + length) length)) ∧
    (build_paging_envelope route build_fn data group_id query draft_type
        index length total).first =
      build_paging_url route group_id query draft_type 0 length ∧
    (∀ u, (build_paging_envelope route build_fn data group_id query draft_type
        index length total).prev = some u →
      u.query_params.filter (fun p => p.1 != "index") =
        (build_paging_envelope route build_fn data group_id query draft_type
          index length total).first.query_params.filter
            (fun p => p.1 != "index")) ∧
    (∀ u, (build_paging_envelope route build_fn data group_id query draft_type
        index length total).next = some u →
      u.query_params.filter (fun p => p.1 != "index") =
        (build_paging_envelope route build_fn data group_id query draft_type
          index length total).first.query_params.filter
            (fun p => p.1 != "index")) := by
  refine ⟨rfl, rfl, ?_, ?_, ?_, ?_, ?_, rfl, ?_, ?_⟩
  · simp [build_paging_envelope]
  · by_cases h : index > 0 <;> simp [build_paging_envelope, h]
  · intro h
    simp [build_paging_envelope, h]
  · by_cases h : total > index + length <;> simp [build_paging_envelope, h]
  · intro h
    simp [build_paging_envelope, h]
  · intro u hu
    by_cases h : index > 0
    · simp [build_paging_envelope, h] at hu
      rw [← hu]
      exact build_paging_url_filter_index route group_id query draft_type _ 0 length
    · simp [build_paging_envelope, h] at hu
  · intro u hu
    by_cases h : total > index + length
    · simp [build_paging_envelope, h] at hu
      rw [← hu]
      exact build_paging_url_filter_index route group_id query draft_type _ 0 length
    · simp [build_paging_envelope, h] at hu

/-- Witness for C5: at index 3, page length 2 and total 10 the next link is
present and points at index 5. -/
theorem c5_witness :
    (build_paging_envelope "queues" (fun n : Nat => n) [1, 2] (some 7)
        (some "q") none 3 2 10).next =
      some (build_paging_url "queues" (some 7) (some "q") none 5 2) :=
  (c5_build_paging_envelope_shape "queues" (fun n : Nat => n) [1, 2] (some 7)
    (some "q") none 3 2 10).2.2.2.2.2.2.1 (by decide)

/-- C10.  `build_paging_url` includes the groupId query parameter exactly
when the group id is truthy, and likewise search and draft_type; a group
filter of 0, an empty search string or an empty draft type supplied by the
caller is silently omitted from the generated link, while index and
pageLength are always present. -/
theorem c10_build_paging_url_truthiness (route : String)
    (group_id : Option Nat) (search draft_type : Option String)
    (index length : Nat) :
    (("groupId" ∈ (build_paging_url route group_id search draft_type index
        length).query_params.map Prod.fst) ↔
      ∃ g, group_id = some g ∧ g ≠ 0) ∧
    (("search" ∈ (build_paging_url route group_id search draft_type index
        length).query_params.map Prod.fst) ↔
      ∃ s, search = some s ∧ s ≠ "") ∧
    (("draft_type" ∈ (build_paging_url route group_id search draft_type index
        length).query_params.map Prod.fst) ↔
      ∃ d, draft_type = some d ∧ d ≠ "") ∧
    "index" ∈ (build_paging_url route group_id search draft_type index
        length).query_params.map Prod.fst ∧
    "pageLength" ∈ (build_paging_url route group_id search draft_type index
        length).query_params.map Prod.fst := by
  rcases group_id with _ | g <;> rcases search with _ | s <;>
    rcases draft_type with _ | d
  all_goals try by_cases hg : g = 0
  all_goals try by_cases hs : s = ""
  all_goals try by_cases hd : d = ""
  all_goals
    refine ⟨?_, ?_, ?_, ?_, ?_⟩ <;> simp_all [build_paging_url, build_url]

/-- Witness for C10: a group id of 7 does appear in the link. -/
theorem c10_witness :
    "groupId" ∈ (build_paging_url "queues" (some 7) none none 1
        2).query_params.map Prod.fst :=
  (c10_build_paging_url_truthiness "queues" (some 7) none none 1 2).1.mpr
    ⟨7, rfl, by decide⟩

/-- C6.  The call in `QueueEndpoint.get` supplies seven positional arguments
to `build_paging_envelope`, which has nine parameters, none with a default,
so Python positional binding fails (`TypeError`): the controller call does
not match the function parameters, contrary to the claim. -/
theorem c6_queue_controller_call_mismatch :
    binds_positional build_paging_envelope_params
        queue_endpoint_get_call_args.length = false ∧
    (build_paging_envelope_params.filter (fun p => !p.has_default)).length = 9 ∧
    queue_endpoint_get_call_args.length = 7 := by decide

/-- Counterexample to C7 as stated: with a mismatched password,
`error_if_failed` set and an expiration date in the past, `authenticate`
raises the verification-failed error, not the password-expired error, so the
password-expired error is not raised whenever the expiration date is in the
past. -/
theorem c7_counterexample :
    (2 : Int) < 3 ∧
    authenticate "wrong" (password_service_hash "right") 2 true 3 =
      .error .userPasswordVerificationError ∧
    authenticate "wrong" (password_service_hash "right") 2 true 3 ≠
      .error .userPasswordExpiredError := by decide

/-- C7 (amended).  `authenticate` returns the verification result whenever no
error is raised; it raises the verification-failed error when the password
does not verify and `error_if_failed` is set; and it raises the
password-expired error whenever the expiration date is in the past unless
the verification-failed error is raised first, including the case where the
password verification itself succeeds. -/
theorem c7_authenticate_amended (password user_password : String)
    (expiration_date : Int) (error_if_failed : Bool) (now : Int) :
    (password_service_verify password user_password = true →
      ¬ expiration_date < now →
      authenticate password user_password expiration_date error_if_failed now =
        .ok true) ∧
    (password_service_verify password user_password = false →
      error_if_failed = false → ¬ expiration_date < now →
      authenticate password user_password expiration_date error_if_failed now =
        .ok false) ∧
    (password_service_verify password user_password = false →
      error_if_failed = true →
      authenticate password user_password expiration_date error_if_failed now =
        .error .userPasswordVerificationError) ∧
    (expiration_date < now →
      (password_service_verify password user_password = true ∨
        error_if_failed = false) →
      authenticate password user_password expiration_date error_if_failed now =
        .error .userPasswordExpiredError) ∧
    (∀ b, authenticate password user_password expiration_date error_if_failed
        now = .ok b → b = password_service_verify password user_password) := by
  refine ⟨?_, ?_, ?_, ?_, ?_⟩
  · intro h1 h2
    simp [authenticate, h1, h2]
  · intro h1 h2 h3
    simp [authenticate, h1, h2, h3]
  · intro h1 h2
    simp [authenticate, h1, h2]
  · intro hlt hor
    rcases hor with h | h
    · simp [authenticate, h, hlt]
    · simp [authenticate, h, hlt]
  · intro b h
    cases hv : password_service_verify password user_password <;>
      cases hf : error_if_failed <;>
        by_cases hlt : expiration_date < now <;>
          simp [authenticate, hv, hf, hlt] at h <;> simp [h]

/-- Witness for C7 (amended): a matching, unexpired password authenticates
as true. -/
theorem c7_witness :
    authenticate "supersecurepassword"
        (password_service_hash "supersecurepassword") 5 false 3 = .ok true :=
  (c7_authenticate_amended "supersecurepassword"
    (password_service_hash "supersecurepassword") 5 false 3).1 (by decide)
    (by decide)

/-- Counterexample to C8 as stated: the current password verifies, the new
password also verifies against the stored hash (it equals the current
password), yet `change` raises the generic password-change error rather than
the same-password error, because the confirmation does not match the new
password and that check runs first. -/
theorem c8_counterexample :
    password_service_verify "supersecurepassword"
        (User.mk 1 "user1" (password_service_hash "supersecurepassword") 9 0
          100).password = true ∧
    change (User.mk 1 "user1" (password_service_hash "supersecurepassword") 9
        0 100) "supersecurepassword" "supersecurepassword" "different" 42 7 =
      (User.mk 1 "user1" (password_service_hash "supersecurepassword") 9 0
        100, .error .userPasswordChangeError) ∧
    (change (User.mk 1 "user1" (password_service_hash "supersecurepassword") 9
        0 100) "supersecurepassword" "supersecurepassword" "different" 42
        7).2 ≠ .error .userPasswordChangeSamePasswordError := by decide

/-- C8 (amended).  For a user whose stored hash verifies the submitted
current password: when the new password matches its confirmation and also
verifies against the stored hash (it equals the current password), `change`
raises the same-password error and returns the user unchanged, with
alternative_id, password, last_modified_on and password_expire_on keeping
their prior values; when the new password matches its confirmation and does
not verify against the stored hash, the change succeeds, the alternative id
is rotated to the fresh UUID and the password expiry is set 365 days after
the change time. -/
theorem c8_change_password_amended (user : User)
    (current_password new_password confirm_new_password : String)
    (fresh_uuid : Nat) (now : Int)
    (hcur : password_service_verify current_password user.password = true) :
    (new_password = confirm_new_password →
      password_service_verify new_password user.password = true →
      change user current_password new_password confirm_new_password
          fresh_uuid now =
        (user, .error .userPasswordChangeSamePasswordError)) ∧
    (new_password = confirm_new_password →
      password_service_verify new_password user.password = false →
      change user current_password new_password confirm_new_password
          fresh_uuid now =
        ({ user with
            password := password_service_hash new_password
            alternative_id := fresh_uuid
            last_modified_on := now
            password_expire_on := now + DAYS_TO_EXPIRE_PASSWORD_DEFAULT },
         .ok user.username)) := by
  constructor
  · intro h1 h2
    subst h1
    simp [change, hcur, h2]
  · intro h1 h2
    subst h1
    simp [change, hcur, h2]

/-- Witness for C8 (amended): a valid password change rotates the
alternative id to the fresh UUID and extends the expiry by 365 days. -/
theorem c8_witness :
    change (User.mk 1 "user1" (password_service_hash "old") 9 0 100) "old"
        "new" "new" 42 7 =
      ({ User.mk 1 "user1" (password_service_hash "old") 9 0 100 with
          password := password_service_hash "new"
          alternative_id := 42
          last_modified_on := 7
          password_expire_on := 7 + DAYS_TO_EXPIRE_PASSWORD_DEFAULT },
       .ok "user1") :=
  (c8_change_password_amended
    (User.mk 1 "user1" (password_service_hash "old") 9 0 100) "old" "new"
    "new" 42 7 (by decide)).2 rfl (by decide)

/-- A `find?` over a list whose keys have no duplicates returns the given
member when the predicate holds of it and the predicate forces the key. -/
theorem find_eq_some_of_unique_key {α : Type} {key : α → Nat} {l : List α}
    (hnd : (l.map key).Nodup) {x : α} (hx : x ∈ l) {p : α → Bool}
    (hpx : p x = true) (hkey : ∀ y ∈ l, p y = true → key y = key x) :
    l.find? p = some x := by
  induction l with
  | nil => cases hx
  | cons a t ih =>
      rw [List.map_cons, List.nodup_cons] at hnd
      rcases List.mem_cons.mp hx with rfl | hxt
      · exact List.find?_cons_of_pos t hpx
      · by_cases hpa : p a = true
        · exact absurd
            ((hkey a (List.mem_cons_self a t) hpa) ▸
              List.mem_map_of_mem key hxt) hnd.1
        · rw [List.find?_cons_of_neg t hpa]
          exact ih hnd.2 hxt fun y hy hpy =>
            hkey y (List.mem_cons_of_mem a hy) hpy

/-- Two pointwise-equal predicates find the same element. -/
theorem find_pred_congr {α : Type} {p q : α → Bool} (h : ∀ a, p a = q a) :
    ∀ l : List α, l.find? p = l.find? q := by
  intro l
  induction l with
  | nil => rfl
  | cons a t ih => simp [List.find?_cons, h a, ih]

/-- A `find?` commutes with a map that does not change the predicate. -/
theorem find_map_of_pred_invariant {α : Type} {f : α → α} {p : α → Bool}
    (hf : ∀ a, p (f a) = p a) (l : List α) :
    (l.map f).find? p = (l.find? p).map f := by
  rw [List.find?_map]
  congr 1
  exact find_pred_congr (fun a => hf a) l

/-- Inversion of `resourceOf`: the row found is a member and carries the
requested id. -/
theorem resourceOf_eq_some {store : Store} {rid : Nat} {r : ResourceRow}
    (h : resourceOf store rid = some r) :
    r ∈ store.resources ∧ r.resource_id = rid := by
  refine ⟨List.mem_of_find?_eq_some h, ?_⟩
  have hp := List.find?_some h
  simpa using hp

/-- Inversion of the by-id `get`: the returned snapshot is a stored row of
the requested resource, the returned resource is the joined row, the latest
snapshot pointer points at the returned snapshot, and the resource is not
deleted. -/
theorem plugin_parameter_type_id_get_inv {store : Store} {rid : Nat}
    {cur : SnapshotRow} {res : ResourceRow}
    (h : plugin_parameter_type_id_get store rid = some (cur, res)) :
    cur ∈ store.snapshots ∧ cur.resource_id = rid ∧
      resourceOf store rid = some res ∧
      res.latest_snapshot_id = cur.resource_snapshot_id ∧
      is_deleted store rid = false := by
  unfold plugin_parameter_type_id_get at h
  split at h
  · cases h
  next s hf =>
    cases hr : resourceOf store s.resource_id with
    | none => rw [hr] at h; cases h
    | some r =>
        rw [hr] at h
        simp only [Option.map_some'] at h
        have hinj := Option.some.inj h
        have hs : s = cur := congrArg Prod.fst hinj
        have hr2 : r = res := congrArg Prod.snd hinj
        have hp := List.find?_some hf
        simp only [hr, Bool.and_eq_true, beq_iff_eq, Bool.not_eq_true'] at hp
        obtain ⟨hsid, hlat, hdel⟩ := hp
        have hresid : r.resource_id = s.resource_id :=
          (resourceOf_eq_some hr).2
        rw [← hs, ← hr2]
        refine ⟨List.mem_of_find?_eq_some hf, hsid, ?_, hlat, ?_⟩
        · rw [← hsid]; exact hr
        · rw [← hsid, ← hresid]; exact hdel

/-- C1 (amended).  For every existing, non-deleted plugin parameter type
resource and field update whose name either equals the current name or does
not collide with another non-deleted plugin parameter type of the same
group, `modify` inserts exactly one new snapshot row carrying the updated
fields and a bumped snapshot id and repoints the resource latest snapshot
pointer at it, so that a subsequent `get` returns the updated fields as the
latest snapshot, while the previously latest snapshot row still exists
unchanged with its pre-update field values and stays retrievable by its
snapshot id: history is immutable. -/
theorem c1_modify_inserts_new_snapshot (store : Store) (rid : Nat)
    (name structure_ description : String) (error_if_not_found : Bool)
    (cur : SnapshotRow) (res : ResourceRow) (hwf : StoreWF store)
    (hget : plugin_parameter_type_id_get store rid = some (cur, res))
    (hname : name = cur.fields.name ∨
      plugin_parameter_type_name_get store name res.group_id = none) :
    plugin_parameter_type_modify store rid name structure_ description
        error_if_not_found =
      ({ store with
          snapshots := store.snapshots ++
            [⟨store.next_snapshot_id, rid, ⟨name, structure_, description⟩⟩]
          resources := store.resources.map (fun r =>
            if r.resource_id == rid then
              { r with latest_snapshot_id := store.next_snapshot_id }
            else r)
          next_snapshot_id := store.next_snapshot_id + 1 },
       .ok (some ⟨store.next_snapshot_id, rid,
        ⟨name, structure_, description⟩⟩)) ∧
    plugin_parameter_type_id_get
        (plugin_parameter_type_modify store rid name structure_ description
          error_if_not_found).1 rid =
      some (⟨store.next_snapshot_id, rid, ⟨name, structure_, description⟩⟩,
        { res with latest_snapshot_id := store.next_snapshot_id }) ∧
    cur ∈ (plugin_parameter_type_modify store rid name structure_ description
        error_if_not_found).1.snapshots ∧
    resource_snapshot_get
        (plugin_parameter_type_modify store rid name structure_ description
          error_if_not_found).1 rid cur.resource_snapshot_id = some cur ∧
    cur.resource_snapshot_id < store.next_snapshot_id := by
  obtain ⟨hmem, hcid, hres, hlat, hdel⟩ := plugin_parameter_type_id_get_inv hget
  obtain ⟨hresmem, hresid⟩ := resourceOf_eq_some hres
  have hmod : plugin_parameter_type_modify store rid name structure_
      description error_if_not_found =
      ({ store with
          snapshots := store.snapshots ++
            [⟨store.next_snapshot_id, rid, ⟨name, structure_, description⟩⟩]
          resources := store.resources.map (fun r =>
            if r.resource_id == rid then
              { r with latest_snapshot_id := store.next_snapshot_id }
            else r)
          next_snapshot_id := store.next_snapshot_id + 1 },
       .ok (some ⟨store.next_snapshot_id, rid,
        ⟨name, structure_, description⟩⟩)) := by
    unfold plugin_parameter_type_modify
    rw [hget]
    rcases hname with h | h
    · simp [h]
    · simp [h]
  have hfst : (plugin_parameter_type_modify store rid name structure_
      description error_if_not_found).1 =
      { store with
          snapshots := store.snapshots ++
            [⟨store.next_snapshot_id, rid, ⟨name, structure_, description⟩⟩]
          resources := store.resources.map (fun r =>
            if r.resource_id == rid then
              { r with latest_snapshot_id := store.next_snapshot_id }
            else r)
          next_snapshot_id := store.next_snapshot_id + 1 } := by
    rw [hmod]
  have hupd : ∀ a : ResourceRow,
      ((fun r : ResourceRow =>
        if r.resource_id == rid then
          { r with latest_snapshot_id := store.next_snapshot_id }
        else r) a).resource_id = a.resource_id := by
    intro a
    by_cases ha : a.resource_id == rid <;> simp [ha]
  have hro : ∀ x : Nat,
      resourceOf (plugin_parameter_type_modify store rid name structure_
        description error_if_not_found).1 x =
      (resourceOf store x).map (fun r : ResourceRow =>
        if r.resource_id == rid then
          { r with latest_snapshot_id := store.next_snapshot_id }
        else r) := by
    intro x
    rw [hfst]
    show (store.resources.map _).find? _ = _
    exact find_map_of_pred_invariant (fun a => by rw [hupd a]) store.resources
  have hrores : resourceOf (plugin_parameter_type_modify store rid name
      structure_ description error_if_not_found).1 rid =
      some { res with latest_snapshot_id := store.next_snapshot_id } := by
    rw [hro rid, hres]
    simp [hresid]
  have hdel1 : ∀ x : Nat,
      is_deleted (plugin_parameter_type_modify store rid name structure_
        description error_if_not_found).1 x = is_deleted store x := by
    intro x
    rw [hfst]
    rfl
  have hsnaps : (plugin_parameter_type_modify store rid name structure_
      description error_if_not_found).1.snapshots =
      store.snapshots ++
        [⟨store.next_snapshot_id, rid, ⟨name, structure_, description⟩⟩] := by
    rw [hfst]
  have hnd : ((store.snapshots ++
      ([⟨store.next_snapshot_id, rid, ⟨name, structure_, description⟩⟩] :
        List SnapshotRow)).map
        (fun s => s.resource_snapshot_id)).Nodup := by
    rw [List.map_append, List.nodup_append]
    refine ⟨hwf.snap_nodup, List.nodup_singleton _, ?_⟩
    intro a ha hb
    simp only [List.map_cons, List.map_nil, List.mem_singleton] at hb
    obtain ⟨s, hs, hkey⟩ := List.mem_map.mp ha
    have := hwf.snap_lt s hs
    omega
  refine ⟨hmod, ?_, ?_, ?_, hwf.snap_lt cur hmem⟩
  · unfold plugin_parameter_type_id_get
    have hfind2 : (plugin_parameter_type_modify store rid name structure_
        description error_if_not_found).1.snapshots.find? (fun s =>
          s.resource_id == rid &&
            (match resourceOf (plugin_parameter_type_modify store rid name
                structure_ description error_if_not_found).1 s.resource_id with
             | some r =>
                 r.latest_snapshot_id == s.resource_snapshot_id &&
                   !(is_deleted (plugin_parameter_type_modify store rid name
                     structure_ description error_if_not_found).1
                       r.resource_id)
             | none => false)) =
        some (⟨store.next_snapshot_id, rid, ⟨name, structure_, description⟩⟩ :
          SnapshotRow) := by
      rw [hsnaps]
      refine find_eq_some_of_unique_key hnd
        (List.mem_append_right _ (List.mem_singleton.mpr rfl)) ?_ ?_
      · simp only [Bool.and_eq_true, beq_iff_eq]
        refine ⟨trivial, ?_⟩
        simp only [hrores]
        simp [hdel1, hresid, hdel]
      · intro y _ hpy
        simp only [Bool.and_eq_true, beq_iff_eq] at hpy
        obtain ⟨hyrid, hymatch⟩ := hpy
        rw [hyrid] at hymatch
        simp only [hrores, Bool.and_eq_true, beq_iff_eq] at hymatch
        exact hymatch.1.symm
    rw [hfind2]
    show (resourceOf (plugin_parameter_type_modify store rid name structure_
      description error_if_not_found).1 rid).map _ = _
    rw [hrores]
    rfl
  · rw [hfst]
    exact List.mem_append_left _ hmem
  · unfold resource_snapshot_get
    rw [hsnaps]
    refine find_eq_some_of_unique_key hnd (List.mem_append_left _ hmem) ?_ ?_
    · simp [hcid]
    · intro y _ hpy
      simp only [Bool.and_eq_true, beq_iff_eq] at hpy
      exact hpy.2

/-- Counterexample to C1 as stated: modifying an existing, non-deleted
plugin parameter type with a field update whose name collides with another
resource of the same group raises `AlreadyExists` and inserts no snapshot,
so the claim fails for that field update. -/
theorem c1_counterexample :
    plugin_parameter_type_id_get
        (Store.mk [1]
          [⟨1, RESOURCE_TYPE, 1, 10⟩, ⟨2, RESOURCE_TYPE, 1, 11⟩]
          [⟨10, 1, ⟨"alpha", "s", "d"⟩⟩, ⟨11, 2, ⟨"beta", "s", "d"⟩⟩]
          [] 3 12) 1 =
      some (⟨10, 1, ⟨"alpha", "s", "d"⟩⟩, ⟨1, RESOURCE_TYPE, 1, 10⟩) ∧
    plugin_parameter_type_modify
        (Store.mk [1]
          [⟨1, RESOURCE_TYPE, 1, 10⟩, ⟨2, RESOURCE_TYPE, 1, 11⟩]
          [⟨10, 1, ⟨"alpha", "s", "d"⟩⟩, ⟨11, 2, ⟨"beta", "s", "d"⟩⟩]
          [] 3 12) 1 "beta" "s2" "d2" true =
      (Store.mk [1]
        [⟨1, RESOURCE_TYPE, 1, 10⟩, ⟨2, RESOURCE_TYPE, 1, 11⟩]
        [⟨10, 1, ⟨"alpha", "s", "d"⟩⟩, ⟨11, 2, ⟨"beta", "s", "d"⟩⟩]
        [] 3 12, .error .alreadyExists) := by decide

/-- Witness for C1 (amended): renaming resource 1 to a non-colliding name
makes `get` return the new fields as the latest snapshot. -/
theorem c1_witness :
    plugin_parameter_type_id_get
        (plugin_parameter_type_modify
          (Store.mk [1]
            [⟨1, RESOURCE_TYPE, 1, 10⟩, ⟨2, RESOURCE_TYPE, 1, 11⟩]
            [⟨10, 1, ⟨"alpha", "s", "d"⟩⟩, ⟨11, 2, ⟨"beta", "s", "d"⟩⟩]
            [] 3 12) 1 "gamma" "s2" "d2" true).1 1 =
      some (⟨12, 1, ⟨"gamma", "s2", "d2"⟩⟩, ⟨1, RESOURCE_TYPE, 1, 12⟩) :=
  (c1_modify_inserts_new_snapshot
    (Store.mk [1]
      [⟨1, RESOURCE_TYPE, 1, 10⟩, ⟨2, RESOURCE_TYPE, 1, 11⟩]
      [⟨10, 1, ⟨"alpha", "s", "d"⟩⟩, ⟨11, 2, ⟨"beta", "s", "d"⟩⟩]
      [] 3 12) 1 "gamma" "s2" "d2" true ⟨10, 1, ⟨"alpha", "s", "d"⟩⟩
    ⟨1, RESOURCE_TYPE, 1, 10⟩
    ⟨by decide, by decide, by decide, by decide⟩ (by decide)
    (Or.inr (by decide))).2.1

/-- C2.  When a non-deleted plugin parameter type whose latest snapshot has
the requested name already exists in the group, `create` raises
`AlreadyExists` and the store is unchanged, no resource or snapshot row
having been added (the check runs before anything is added); when no such
resource exists and the group exists, `create` succeeds and adds exactly one
new `Resource` row together with its first snapshot, whose fields are the
inputs and whose latest snapshot pointer points at that first snapshot. -/
theorem c2_create_name_uniqueness (store : Store)
    (name structure_ description : String) (group_id : Nat) :
    ((plugin_parameter_type_name_get store name group_id).isSome = true →
      plugin_parameter_type_create store name structure_ description
          group_id = (store, .error .alreadyExists)) ∧
    (plugin_parameter_type_name_get store name group_id = none →
      group_id ∈ store.groups →
      plugin_parameter_type_create store name structure_ description
          group_id =
        ({ store with
            resources := store.resources ++
              [⟨store.next_resource_id, RESOURCE_TYPE, group_id,
                store.next_snapshot_id⟩]
            snapshots := store.snapshots ++
              [⟨store.next_snapshot_id, store.next_resource_id,
                ⟨name, structure_, description⟩⟩]
            next_resource_id := store.next_resource_id + 1
            next_snapshot_id := store.next_snapshot_id + 1 },
         .ok ⟨store.next_snapshot_id, store.next_resource_id,
          ⟨name, structure_, description⟩⟩)) := by
  constructor
  · intro h
    unfold plugin_parameter_type_create
    simp [h]
  · intro h hg
    unfold plugin_parameter_type_create
    have hg' : store.groups.contains group_id = true := by
      simpa [List.elem_iff] using hg
    simp [h, hg, hg']

/-- Witness for C2: creating "alpha" again in group 1 fails with
`AlreadyExists` and leaves the store unchanged. -/
theorem c2_witness :
    plugin_parameter_type_create
        (Store.mk [1] [⟨1, RESOURCE_TYPE, 1, 10⟩]
          [⟨10, 1, ⟨"alpha", "s", "d"⟩⟩] [] 2 11) "alpha" "s2" "d2" 1 =
      (Store.mk [1] [⟨1, RESOURCE_TYPE, 1, 10⟩]
        [⟨10, 1, ⟨"alpha", "s", "d"⟩⟩] [] 2 11, .error .alreadyExists) :=
  (c2_create_name_uniqueness
    (Store.mk [1] [⟨1, RESOURCE_TYPE, 1, 10⟩]
      [⟨10, 1, ⟨"alpha", "s", "d"⟩⟩] [] 2 11) "alpha" "s2" "d2" 1).1
    (by decide)

/-- A `delete` on a store in which the selecting query finds no row raises
`DoesNotExist` and leaves the store unchanged. -/
theorem plugin_parameter_type_delete_not_found {st : Store} {rid : Nat}
    (h : st.resources.find? (fun r =>
      r.resource_id == rid && r.resource_type == RESOURCE_TYPE &&
        !(is_deleted st r.resource_id)) = none) :
    plugin_parameter_type_delete st rid = (st, .error .doesNotExist) := by
  unfold plugin_parameter_type_delete
  rw [h]

/-- C3.  Deleting an existing non-deleted plugin parameter type succeeds and
records a `ResourceLock` of kind "delete"; afterwards the by-id `get` raises
`DoesNotExist`, a second `delete` also raises `DoesNotExist`, and no
snapshot row is removed: every previously created snapshot of the resource
remains retrievable by its snapshot id. -/
theorem c3_delete_lock_and_history (store : Store) (rid : Nat)
    (hwf : StoreWF store)
    (hfind : (store.resources.find? (fun r =>
      r.resource_id == rid && r.resource_type == RESOURCE_TYPE &&
        !(is_deleted store r.resource_id))).isSome = true) :
    plugin_parameter_type_delete store rid =
      ({ store with locks := store.locks ++ [⟨"delete", rid⟩] }, .ok rid) ∧
    plugin_parameter_type_id_get_err
        (plugin_parameter_type_delete store rid).1 rid =
      .error .doesNotExist ∧
    (plugin_parameter_type_delete
        (plugin_parameter_type_delete store rid).1 rid).2 =
      .error .doesNotExist ∧
    (plugin_parameter_type_delete store rid).1.snapshots = store.snapshots ∧
    (∀ s ∈ store.snapshots, s.resource_id = rid →
      resource_snapshot_get (plugin_parameter_type_delete store rid).1 rid
        s.resource_snapshot_id = some s) := by
  obtain ⟨r0, hr0⟩ := Option.isSome_iff_exists.mp hfind
  have hdel : plugin_parameter_type_delete store rid =
      ({ store with locks := store.locks ++ [⟨"delete", rid⟩] }, .ok rid) := by
    unfold plugin_parameter_type_delete
    rw [hr0]
  have hfst : (plugin_parameter_type_delete store rid).1 =
      { store with locks := store.locks ++ [⟨"delete", rid⟩] } := by
    rw [hdel]
  have hdel1 : is_deleted (plugin_parameter_type_delete store rid).1 rid =
      true := by
    rw [hfst]
    simp [is_deleted, List.any_append]
  have hro : ∀ x : Nat,
      resourceOf (plugin_parameter_type_delete store rid).1 x =
        resourceOf store x := by
    intro x
    rw [hfst]
    rfl
  refine ⟨hdel, ?_, ?_, by rw [hfst], ?_⟩
  · unfold plugin_parameter_type_id_get_err plugin_parameter_type_id_get
    have hnone : (plugin_parameter_type_delete store rid).1.snapshots.find?
        (fun s => s.resource_id == rid &&
          (match resourceOf (plugin_parameter_type_delete store rid).1
              s.resource_id with
           | some r =>
               r.latest_snapshot_id == s.resource_snapshot_id &&
                 !(is_deleted (plugin_parameter_type_delete store rid).1
                   r.resource_id)
           | none => false)) = none := by
      rw [List.find?_eq_none]
      intro s _
      by_cases hsr : s.resource_id = rid
      · rw [hsr, hro rid]
        cases hrr : resourceOf store rid with
        | none => simp
        | some r =>
            have hrid : r.resource_id = rid := (resourceOf_eq_some hrr).2
            simp [hrid, hdel1]
      · simp [hsr]
    rw [hnone]
  · have hnone : (plugin_parameter_type_delete store rid).1.resources.find?
        (fun r => r.resource_id == rid && r.resource_type == RESOURCE_TYPE &&
          !(is_deleted (plugin_parameter_type_delete store rid).1
            r.resource_id)) = none := by
      rw [List.find?_eq_none]
      intro r _
      by_cases hrr : r.resource_id = rid
      · rw [hrr, hdel1]
        simp
      · simp [hrr]
    rw [plugin_parameter_type_delete_not_found hnone]
  · intro s hs hsr
    unfold resource_snapshot_get
    rw [hfst]
    show store.snapshots.find? _ = some s
    refine find_eq_some_of_unique_key hwf.snap_nodup hs ?_ ?_
    · simp [hsr]
    · intro y _ hpy
      simp only [Bool.and_eq_true, beq_iff_eq] at hpy
      exact hpy.2

/-- Witness for C3: deleting resource 1 records the lock and makes the by-id
`get` fail. -/
theorem c3_witness :
    plugin_parameter_type_id_get_err
        (plugin_parameter_type_delete
          (Store.mk [1] [⟨1, RESOURCE_TYPE, 1, 10⟩]
            [⟨10, 1, ⟨"alpha", "s", "d"⟩⟩] [] 2 11) 1).1 1 =
      .error .doesNotExist :=
  (c3_delete_lock_and_history
    (Store.mk [1] [⟨1, RESOURCE_TYPE, 1, 10⟩]
      [⟨10, 1, ⟨"alpha", "s", "d"⟩⟩] [] 2 11) 1
    ⟨by decide, by decide, by decide, by decide⟩ (by decide)).2.1

/-- The page traversal started at any offset returns exactly the remaining
matching rows, in order. -/
theorem follow_pages_eq_drop (store : Store) (group_id : Option Nat)
    (length : Nat) (hL : 0 < length) :
    ∀ fuel index, (matching_snapshots store group_id).length - index ≤ fuel →
      follow_pages store group_id length hL index =
        (matching_snapshots store group_id).drop index := by
  intro fuel
  induction fuel with
  | zero =>
      intro index h
      rw [follow_pages, dif_neg (by omega), List.append_nil]
      apply List.take_of_length_le
      rw [List.length_drop]
      omega
  | succ n ih =>
      intro index h
      rw [follow_pages]
      by_cases hgt : (matching_snapshots store group_id).length > index + length
      · rw [dif_pos hgt, ih (index + length) (by omega)]
        have h1 : ((matching_snapshots store group_id).drop index).drop length =
            (matching_snapshots store group_id).drop (index + length) := by
          rw [List.drop_drop, Nat.add_comm]
        rw [← h1, List.take_append_drop]
      · rw [dif_neg hgt, List.append_nil]
        apply List.take_of_length_le
        rw [List.length_drop]
        omega

/-- The final page start of the traversal is the one past which no further
full page exists: there the envelope reports completeness. -/
theorem page_starts_getLast_complete (total length : Nat) (hL : 0 < length) :
    ∀ fuel index j, total - index ≤ fuel →
      (page_starts total length hL index).getLast? = some j →
      total ≤ j + length := by
  intro fuel
  induction fuel with
  | zero =>
      intro index j h hlast
      rw [page_starts, dif_neg (by omega)] at hlast
      simp at hlast
      omega
  | succ n ih =>
      intro index j h hlast
      rw [page_starts] at hlast
      by_cases hgt : total > index + length
      · rw [dif_pos hgt] at hlast
        have hexp : page_starts total length hL (index + length) =
            (index + length) ::
              (if _h : total > (index + length) + length then
                page_starts total length hL ((index + length) + length)
              else []) := by
          rw [page_starts]
        rw [hexp, List.getLast?_cons_cons, ← hexp] at hlast
        exact ih (index + length) j (by omega) hlast
      · rw [dif_neg hgt] at hlast
        simp at hlast
        omega

/-- Every page start before the final one has a further full page: there the
envelope reports incompleteness. -/
theorem page_starts_dropLast_incomplete (total length : Nat) (hL : 0 < length) :
    ∀ fuel index j, total - index ≤ fuel →
      j ∈ (page_starts total length hL index).dropLast →
      total > j + length := by
  intro fuel
  induction fuel with
  | zero =>
      intro index j h hj
      rw [page_starts, dif_neg (by omega)] at hj
      simp at hj
  | succ n ih =>
      intro index j h hj
      rw [page_starts] at hj
      by_cases hgt : total > index + length
      · rw [dif_pos hgt] at hj
        have hexp : page_starts total length hL (index + length) =
            (index + length) ::
              (if _h : total > (index + length) + length then
                page_starts total length hL ((index + length) + length)
              else []) := by
          rw [page_starts]
        rw [hexp, List.dropLast_cons₂, ← hexp] at hj
        rcases List.mem_cons.mp hj with rfl | hj2
        · exact hgt
        · exact ih (index + length) j (by omega) hj2
      · rw [dif_neg hgt] at hj
        simp at hj

/-- C4.  For the collection of matching stored rows and any page length
L > 0: the list service applies the requested index as the row offset and L
as the limit and reports the total count; following the next links from
index 0 (each envelope advances the index by L) and concatenating the page
data lists yields exactly the stored collection, with no duplicates; and
the envelope is complete exactly at the final page start and incomplete at
every earlier one. -/
theorem c4_paging_traversal (store : Store) (group_id : Option Nat) (L : Nat)
    (hL : 0 < L) (hwf : StoreWF store) :
    follow_pages store group_id L hL 0 = matching_snapshots store group_id ∧
    (follow_pages store group_id L hL 0).Nodup ∧
    (∀ i, plugin_parameter_type_list store group_id "" i L =
      .ok (((matching_snapshots store group_id).drop i).take L,
        (matching_snapshots store group_id).length)) ∧
    (∀ i (page : List SnapshotRow),
      ((build_paging_envelope "pluginParameterTypes" (fun s => s) page
          group_id none none i L
          (matching_snapshots store group_id).length).is_complete = true ↔
        (matching_snapshots store group_id).length ≤ i + L)) ∧
    (∀ i (page : List SnapshotRow),
      (matching_snapshots store group_id).length > i + L →
      (build_paging_envelope "pluginParameterTypes" (fun s => s) page
          group_id none none i L
          (matching_snapshots store group_id).length).next =
        some (build_paging_url "pluginParameterTypes" group_id none none
          (i + L) L)) ∧
    (∀ j, (page_starts (matching_snapshots store group_id).length L hL
        0).getLast? = some j →
      (matching_snapshots store group_id).length ≤ j + L) ∧
    (∀ j ∈ (page_starts (matching_snapshots store group_id).length L hL
        0).dropLast,
      (matching_snapshots store group_id).length > j + L) := by
  have hjoin : follow_pages store group_id L hL 0 =
      matching_snapshots store group_id := by
    rw [follow_pages_eq_drop store group_id L hL
      (matching_snapshots store group_id).length 0 (by omega)]
    exact List.drop_zero _
  refine ⟨hjoin, ?_, ?_, ?_, ?_, ?_, ?_⟩
  · rw [hjoin]
    exact List.Nodup.sublist (List.filter_sublist _)
      (List.Nodup.of_map _ hwf.snap_nodup)
  · intro i
    by_cases h0 : (matching_snapshots store group_id).length = 0
    · have hnil : matching_snapshots store group_id = [] :=
        List.length_eq_zero.mp h0
      simp [plugin_parameter_type_list, hnil]
    · simp [plugin_parameter_type_list, h0]
  · intro i page
    simp only [build_paging_envelope]
    constructor
    · intro h
      simp at h
      omega
    · intro h
      simp
      omega
  · intro i page h
    simp [build_paging_envelope, h]
  · intro j hlast
    exact page_starts_getLast_complete
      (matching_snapshots store group_id).length L hL
      (matching_snapshots store group_id).length 0 j (by omega) hlast
  · intro j hj
    exact page_starts_dropLast_incomplete
      (matching_snapshots store group_id).length L hL
      (matching_snapshots store group_id).length 0 j (by omega) hj

/-- Witness for C4: traversing the two-element collection with page length
one yields the whole collection. -/
theorem c4_witness :
    follow_pages
        (Store.mk [1]
          [⟨1, RESOURCE_TYPE, 1, 10⟩, ⟨2, RESOURCE_TYPE, 1, 11⟩]
          [⟨10, 1, ⟨"alpha", "s", "d"⟩⟩, ⟨11, 2, ⟨"beta", "s", "d"⟩⟩]
          [] 3 12) (some 1) 1 (by decide) 0 =
      matching_snapshots
        (Store.mk [1]
          [⟨1, RESOURCE_TYPE, 1, 10⟩, ⟨2, RESOURCE_TYPE, 1, 11⟩]
          [⟨10, 1, ⟨"alpha", "s", "d"⟩⟩, ⟨11, 2, ⟨"beta", "s", "d"⟩⟩]
          [] 3 12) (some 1) :=
  (c4_paging_traversal
    (Store.mk [1]
      [⟨1, RESOURCE_TYPE, 1, 10⟩, ⟨2, RESOURCE_TYPE, 1, 11⟩]
      [⟨10, 1, ⟨"alpha", "s", "d"⟩⟩, ⟨11, 2, ⟨"beta", "s", "d"⟩⟩]
      [] 3 12) (some 1) 1 (by decide)
    ⟨by decide, by decide, by decide, by decide⟩).1

/-- Entries of a dictionary insertion: the inserted pair or an original
entry. -/
theorem dict_insert_mem {α : Type} {k : Nat} {v : α} {d : List (Nat × α)}
    {a : Nat} {p : α} (h : (a, p) ∈ dict_insert k v d) :
    (a = k ∧ p = v) ∨ (a, p) ∈ d := by
  induction d with
  | nil => simpa [dict_insert] using h
  | cons hd t ih =>
      obtain ⟨k', v'⟩ := hd
      rw [dict_insert] at h
      by_cases hk : (k' == k) = true
      · rw [if_pos hk] at h
        rcases List.mem_cons.mp h with heq | hmem
        · exact Or.inl (by simpa using heq)
        · exact Or.inr (List.mem_cons_of_mem _ hmem)
      · rw [if_neg hk] at h
        rcases List.mem_cons.mp h with heq | hmem
        · exact Or.inr (List.mem_cons.mpr (Or.inl heq))
        · rcases ih hmem with h1 | h2
          · exact Or.inl h1
          · exact Or.inr (List.mem_cons_of_mem _ h2)

/-- Keys of a dictionary insertion. -/
theorem dict_insert_keys_mem {α : Type} (k : Nat) (v : α)
    (d : List (Nat × α)) (a : Nat) :
    a ∈ (dict_insert k v d).map Prod.fst ↔ a = k ∨ a ∈ d.map Prod.fst := by
  induction d with
  | nil => simp [dict_insert]
  | cons hd t ih =>
      obtain ⟨k', v'⟩ := hd
      rw [dict_insert]
      by_cases hk : (k' == k) = true
      · have hkk : k' = k := by simpa using hk
        subst hkk
        rw [if_pos hk]
        simp
      · rw [if_neg hk]
        simp [ih]
        tauto

/-- Dictionary insertion keeps the keys without duplicates. -/
theorem dict_insert_keys_nodup {α : Type} (k : Nat) (v : α)
    {d : List (Nat × α)} (h : (d.map Prod.fst).Nodup) :
    ((dict_insert k v d).map Prod.fst).Nodup := by
  induction d with
  | nil => simp [dict_insert]
  | cons hd t ih =>
      obtain ⟨k', v'⟩ := hd
      rw [List.map_cons, List.nodup_cons] at h
      rw [dict_insert]
      by_cases hk : (k' == k) = true
      · have hkk : k' = k := by simpa using hk
        subst hkk
        rw [if_pos hk]
        rw [List.map_cons, List.nodup_cons]
        exact ⟨h.1, h.2⟩
      · rw [if_neg hk, List.map_cons, List.nodup_cons]
        refine ⟨?_, ih h.2⟩
        intro hc
        rw [dict_insert_keys_mem] at hc
        rcases hc with rfl | hc
        · simp at hk
        · exact h.1 hc

/-- A dictionary mutation succeeds exactly when the key is present. -/
theorem dict_update_isSome_iff {α : Type} (k : Nat) (f : α → α)
    (d : List (Nat × α)) :
    (dict_update k f d).isSome = true ↔ k ∈ d.map Prod.fst := by
  induction d with
  | nil => simp [dict_update]
  | cons hd t ih =>
      obtain ⟨k', v'⟩ := hd
      rw [dict_update]
      by_cases hk : (k' == k) = true
      · have hkk : k' = k := by simpa using hk
        rw [if_pos hk]
        simp [hkk]
      · rw [if_neg hk]
        have hkk : ¬ k = k' := fun hc => by simp [hc] at hk
        simp [ih, hkk]

/-- A dictionary mutation preserves the key list. -/
theorem dict_update_keys {α : Type} {k : Nat} {f : α → α}
    {d d' : List (Nat × α)} (h : dict_update k f d = some d') :
    d'.map Prod.fst = d.map Prod.fst := by
  induction d generalizing d' with
  | nil => simp [dict_update] at h
  | cons hd t ih =>
      obtain ⟨k', v'⟩ := hd
      rw [dict_update] at h
      by_cases hk : (k' == k) = true
      · rw [if_pos hk] at h
        have hd' : (k', f v') :: t = d' := Option.some.inj h
        rw [← hd']
        simp
      · rw [if_neg hk] at h
        cases hdu : dict_update k f t with
        | none => rw [hdu] at h; cases h
        | some t' =>
            rw [hdu] at h
            simp only [Option.map_some'] at h
            have hd' : (k', v') :: t' = d' := Option.some.inj h
            rw [← hd']
            simp [ih hdu]

/-- Entries after a dictionary mutation with unique keys: entries at other
keys are unchanged; the entry at the mutated key is the image of the unique
original entry. -/
theorem dict_update_mem {α : Type} {k : Nat} {f : α → α}
    {d d' : List (Nat × α)} (hnd : (d.map Prod.fst).Nodup)
    (h : dict_update k f d = some d') :
    ∀ a p, (a, p) ∈ d' →
      (a ≠ k → (a, p) ∈ d) ∧ (a = k → ∃ q, (a, q) ∈ d ∧ p = f q) := by
  induction d generalizing d' with
  | nil => simp [dict_update] at h
  | cons hd t ih =>
      obtain ⟨k', v'⟩ := hd
      rw [List.map_cons, List.nodup_cons] at hnd
      rw [dict_update] at h
      by_cases hk : (k' == k) = true
      · have hkk : k' = k := by simpa using hk
        subst hkk
        rw [if_pos hk] at h
        have hd' : (k', f v') :: t = d' := Option.some.inj h
        rw [← hd']
        intro a p hp
        rcases List.mem_cons.mp hp with heq | hmem
        · obtain ⟨rfl, rfl⟩ : a = k' ∧ p = f v' := by simpa using heq
          exact ⟨fun hne => absurd rfl hne,
            fun _ => ⟨v', List.mem_cons_self _ _, rfl⟩⟩
        · refine ⟨fun _ => List.mem_cons_of_mem _ hmem, fun ha => ?_⟩
          subst ha
          exact absurd (List.mem_map_of_mem Prod.fst hmem) hnd.1
      · rw [if_neg hk] at h
        cases hdu : dict_update k f t with
        | none => rw [hdu] at h; cases h
        | some t' =>
            rw [hdu] at h
            simp only [Option.map_some'] at h
            have hd' : (k', v') :: t' = d' := Option.some.inj h
            rw [← hd']
            intro a p hp
            rcases List.mem_cons.mp hp with heq | hmem
            · obtain ⟨rfl, rfl⟩ : a = k' ∧ p = v' := by simpa using heq
              refine ⟨fun _ => List.mem_cons_self _ _, fun ha => ?_⟩
              simp [ha] at hk
            · have hrec := ih hnd.2 hdu a p hmem
              refine ⟨fun hne => List.mem_cons_of_mem _ (hrec.1 hne),
                fun ha => ?_⟩
              obtain ⟨q, hq, hpq⟩ := hrec.2 ha
              exact ⟨q, List.mem_cons_of_mem _ hq, hpq⟩

/-- Keys of the dictionary built by the member loop of `build_group`. -/
theorem members_fold_keys_mem (ms : List GroupMemberRow) :
    ∀ (d : List (Nat × MemberPermissions)) (a : Nat),
      (a ∈ (ms.foldl (fun d m =>
          dict_insert m.user_id (member_permissions m) d) d).map Prod.fst ↔
        a ∈ d.map Prod.fst ∨ a ∈ ms.map (fun m => m.user_id)) := by
  induction ms with
  | nil => simp
  | cons m t ih =>
      intro d a
      rw [List.foldl_cons, ih]
      rw [dict_insert_keys_mem]
      simp only [List.map_cons, List.mem_cons]
      tauto

/-- The member loop of `build_group` keeps keys without duplicates. -/
theorem members_fold_keys_nodup (ms : List GroupMemberRow) :
    ∀ d : List (Nat × MemberPermissions), (d.map Prod.fst).Nodup →
      ((ms.foldl (fun d m =>
        dict_insert m.user_id (member_permissions m) d) d).map
          Prod.fst).Nodup := by
  induction ms with
  | nil => intro d h; exact h
  | cons m t ih =>
      intro d h
      rw [List.foldl_cons]
      exact ih _ (dict_insert_keys_nodup _ _ h)

/-- Every entry written by the member loop of `build_group` has owner and
admin false. -/
theorem members_fold_flags (ms : List GroupMemberRow) :
    ∀ d : List (Nat × MemberPermissions),
      (∀ a p, (a, p) ∈ d → p.owner = false ∧ p.admin = false) →
      ∀ a p, (a, p) ∈ ms.foldl (fun d m =>
          dict_insert m.user_id (member_permissions m) d) d →
        p.owner = false ∧ p.admin = false := by
  induction ms with
  | nil => intro d h; exact h
  | cons m t ih =>
      intro d h
      rw [List.foldl_cons]
      refine ih _ ?_
      intro a p hap
      rcases dict_insert_mem hap with ⟨_, rfl⟩ | h2
      · exact ⟨rfl, rfl⟩
      · exact h a p h2

/-- The manager loop of `build_group` preserves the key list. -/
theorem managers_fold_keys (mgrs : List GroupManagerRow) :
    ∀ d d' : List (Nat × MemberPermissions),
      mgrs.foldlM apply_manager d = some d' →
      d'.map Prod.fst = d.map Prod.fst := by
  induction mgrs with
  | nil =>
      intro d d' h
      simp only [List.foldlM_nil] at h
      have : d = d' := Option.some.inj h
      rw [← this]
  | cons m t ih =>
      intro d d' h
      rw [List.foldlM_cons] at h
      cases ha : apply_manager d m with
      | none => rw [ha] at h; cases h
      | some d₁ =>
          rw [ha] at h
          simp only [Option.bind_eq_bind, Option.some_bind] at h
          rw [ih d₁ d' h]
          exact dict_update_keys ha

/-- The manager loop of `build_group` succeeds exactly when every manager
user id is a key of the dictionary. -/
theorem managers_fold_isSome (mgrs : List GroupManagerRow) :
    ∀ d : List (Nat × MemberPermissions),
      ((mgrs.foldlM apply_manager d).isSome = true ↔
        ∀ mgr ∈ mgrs, mgr.user_id ∈ d.map Prod.fst) := by
  induction mgrs with
  | nil => intro d; simp [List.foldlM_nil]
  | cons m t ih =>
      intro d
      rw [List.foldlM_cons]
      have hiff : (apply_manager d m).isSome = true ↔
          m.user_id ∈ d.map Prod.fst :=
        dict_update_isSome_iff m.user_id _ d
      cases ha : apply_manager d m with
      | none =>
          rw [ha] at hiff
          simp only [Option.isSome_none, Bool.false_eq_true, false_iff] at hiff
          simp only [Option.bind_eq_bind, Option.none_bind]
          constructor
          · intro hc; cases hc
          · intro hall
            exact absurd (hall m (List.mem_cons_self _ _)) hiff
      | some d₁ =>
          rw [ha] at hiff
          simp only [Option.isSome_some, true_iff] at hiff
          have hin : m.user_id ∈ d.map Prod.fst := hiff
          simp only [Option.bind_eq_bind, Option.some_bind]
          rw [ih d₁]
          have hkeys : d₁.map Prod.fst = d.map Prod.fst := dict_update_keys ha
          constructor
          · intro hall mgr hm
            rcases List.mem_cons.mp hm with rfl | hm2
            · exact hin
            · rw [← hkeys]
              exact hall mgr hm2
          · intro hall mgr hm
            rw [hkeys]
            exact hall mgr (List.mem_cons_of_mem _ hm)

/-- Flags after the manager loop of `build_group` over a dictionary with
unique keys: entries whose key matches no manager are unchanged, and entries
whose key matches some manager carry the owner and admin flags of a matching
manager row. -/
theorem managers_fold_flags (mgrs : List GroupManagerRow) :
    ∀ d d' : List (Nat × MemberPermissions), (d.map Prod.fst).Nodup →
      mgrs.foldlM apply_manager d = some d' →
      ∀ a p, (a, p) ∈ d' →
        ((∀ mgr ∈ mgrs, mgr.user_id ≠ a) → (a, p) ∈ d) ∧
        ((∃ mgr ∈ mgrs, mgr.user_id = a) →
          ∃ mgr ∈ mgrs, mgr.user_id = a ∧ p.owner = mgr.owner ∧
            p.admin = mgr.admin) := by
  induction mgrs with
  | nil =>
      intro d d' _ h a p hp
      simp only [List.foldlM_nil] at h
      have hdd : d = d' := Option.some.inj h
      subst hdd
      exact ⟨fun _ => hp, by simp⟩
  | cons m t ih =>
      intro d d' hnd h a p hp
      rw [List.foldlM_cons] at h
      cases ha : apply_manager d m with
      | none => rw [ha] at h; cases h
      | some d₁ =>
          rw [ha] at h
          simp only [Option.bind_eq_bind, Option.some_bind] at h
          have hnd₁ : (d₁.map Prod.fst).Nodup := by
            rw [dict_update_keys ha]
            exact hnd
          have hmain := ih d₁ d' hnd₁ h a p hp
          have hupdmem := dict_update_mem hnd ha
          constructor
          · intro hne
            have hne_t : ∀ mgr ∈ t, mgr.user_id ≠ a := fun mgr hm =>
              hne mgr (List.mem_cons_of_mem _ hm)
            have hp₁ : (a, p) ∈ d₁ := hmain.1 hne_t
            have hma : m.user_id ≠ a := hne m (List.mem_cons_self _ _)
            exact (hupdmem a p hp₁).1 (fun hak => hma hak.symm)
          · intro hex
            by_cases hin_t : ∃ mgr ∈ t, mgr.user_id = a
            · obtain ⟨mgr, hm, hma⟩ := hmain.2 hin_t
              exact ⟨mgr, List.mem_cons_of_mem _ hm, hma⟩
            · obtain ⟨mgr0, hm0, ha0⟩ := hex
              have hm_eq : m.user_id = a := by
                rcases List.mem_cons.mp hm0 with rfl | hmem
                · exact ha0
                · exact absurd ⟨mgr0, hmem, ha0⟩ hin_t
              have hne_t : ∀ mgr ∈ t, mgr.user_id ≠ a := by
                intro mgr hm hc
                exact hin_t ⟨mgr, hm, hc⟩
              have hp₁ : (a, p) ∈ d₁ := hmain.1 hne_t
              obtain ⟨q, _, hfq⟩ := (hupdmem a p hp₁).2 hm_eq.symm
              subst hfq
              exact ⟨m, List.mem_cons_self _ _, hm_eq, rfl, rfl⟩

/-- C9.  `build_group` is total exactly when every user in the managers
relation also appears in the members relation (a manager who is not a member
makes the dictionary lookup fail, so the function is not total at the public
group GET interface); when it succeeds it returns exactly one entry per
distinct member user id, whose owner and admin flags come from a matching
manager row and are false for non-managers. -/
theorem c9_build_group_partiality (g : GroupRow) :
    ((build_group g).isSome = true ↔
      ∀ mgr ∈ g.managers, mgr.user_id ∈ g.members.map (fun m => m.user_id)) ∧
    (∀ res, build_group g = some res →
      (res.members.map Prod.fst).Nodup ∧
      (∀ a, a ∈ res.members.map Prod.fst ↔
        a ∈ g.members.map (fun m => m.user_id)) ∧
      (∀ a p, (a, p) ∈ res.members →
        ((∀ mgr ∈ g.managers, mgr.user_id ≠ a) →
          p.owner = false ∧ p.admin = false) ∧
        ((∃ mgr ∈ g.managers, mgr.user_id = a) →
          ∃ mgr ∈ g.managers, mgr.user_id = a ∧ p.owner = mgr.owner ∧
            p.admin = mgr.admin))) := by
  have md_keys : ∀ a, a ∈ (members_dict g).map Prod.fst ↔
      a ∈ g.members.map (fun m => m.user_id) := by
    intro a
    rw [members_dict, members_fold_keys_mem]
    simp
  have md_nodup : ((members_dict g).map Prod.fst).Nodup := by
    rw [members_dict]
    exact members_fold_keys_nodup g.members [] (by simp)
  have md_flags : ∀ a p, (a, p) ∈ members_dict g →
      p.owner = false ∧ p.admin = false := by
    rw [members_dict]
    exact members_fold_flags g.members [] (by simp)
  constructor
  · rw [build_group, Option.isSome_map']
    rw [managers_fold_isSome]
    constructor
    · intro hall mgr hm
      rw [← md_keys]
      exact hall mgr hm
    · intro hall mgr hm
      rw [md_keys]
      exact hall mgr hm
  · intro res hres
    rw [build_group] at hres
    rw [Option.map_eq_some'] at hres
    obtain ⟨d', hd', hres⟩ := hres
    have hmembers : res.members = d' := by rw [← hres]
    have hkeys : d'.map Prod.fst = (members_dict g).map Prod.fst :=
      managers_fold_keys g.managers (members_dict g) d' hd'
    refine ⟨?_, ?_, ?_⟩
    · rw [hmembers, hkeys]
      exact md_nodup
    · intro a
      rw [hmembers, hkeys]
      exact md_keys a
    · intro a p hp
      rw [hmembers] at hp
      have hmain := managers_fold_flags g.managers (members_dict g) d'
        md_nodup hd' a p hp
      exact ⟨fun hne => md_flags a p (hmain.1 hne), hmain.2⟩

/-- Witness for C9: a group whose manager is a member builds successfully. -/
theorem c9_witness :
    (build_group (GroupRow.mk 5 "g" 1
      [⟨1, true, true, false, false⟩, ⟨2, true, false, false, false⟩]
      [⟨2, true, true⟩])).isSome = true :=
  (c9_build_group_partiality (GroupRow.mk 5 "g" 1
    [⟨1, true, true, false, false⟩, ⟨2, true, false, false, false⟩]
    [⟨2, true, true⟩])).1.mpr (by decide)

end Dioptra
